import Mathlib

/-!
# Verification of the mosaic SDK transaction-composition core

Shallow embedding of the TypeScript sources under `packages/sdk/src`
(management/allowlist.ts, management/blocklist.ts, management/mint.ts and
the transaction-util file, the abl and token-acl helper modules), together
with theorems settling the frozen claims about them.

Modelling conventions:
* Addresses are strings (`Addr`), as in the source where `Address` is a
  branded base58 string.
* The network/account-query collaborator is a finite association list of
  accounts (`RpcState`); `getAccountInfo` is lookup, `getProgramAccounts`
  is a filter over the list in list order (the unspecified network scan
  order of the spec).
* An account carries both its raw bytes (`dataBytes`, what base64-encoded
  responses expose) and its jsonParsed view (`AccountData`); keeping the
  two views as separate fields models the RPC service as the black box the
  spec treats it as.
* External pure collaborators (address derivation, the abl account
  decoders) are fields of a `Derive` record threaded through every call,
  mirroring the spec's demand that program-id constants and derivations be
  explicit inputs.
* Fallible TypeScript functions (`throw`) become `Except Err`.
-/

namespace Mosaic

abbrev Addr := String

/-- Program id constant from packages/sdk/src (gill/programs). -/
def TOKEN_2022_PROGRAM_ADDRESS : Addr :=
  "TokenzQdBNbLqP5VEhdkAS6EPFLC1PHnBqCXEpPxuEb"

/-- Program id constant from packages/sdk/src (gill/programs). -/
def SYSTEM_PROGRAM_ADDRESS : Addr := "11111111111111111111111111111111"

/-- Program id constant from packages/sdk/src/token-acl/utils.ts. -/
def TOKEN_ACL_PROGRAM_ID : Addr := "TACLkU6CiCdkQN2MjoyDkVg2yAH9zkxiHDsiztQ52TP"

/-- Program id constant from packages/sdk/src/abl/utils.ts. -/
def ABL_PROGRAM_ID : Addr := "GATEzzqxhJnsWF6vHRsgtixxSB8PaQdcqGEVTEHWiULz"

/-- One entry of a mint's `extensions` array as surfaced by the jsonParsed
encoding; `accountState` models `ext.state.accountState` (absent when the
extension has no such field). -/
structure Extension where
  extension : String
  accountState : Option String
deriving DecidableEq, Repr

/-- The `data.parsed.info` record of a jsonParsed account response. Every
field is optional because the TypeScript code casts the record and reads
fields that may be `undefined` (e.g. a mint account has no `state`). -/
structure ParsedInfo where
  mint : Option Addr := none
  state : Option String := none
  decimals : Option Nat := none
  freezeAuthority : Option Addr := none
  mintAuthority : Option Addr := none
  extensions : Option (List Extension) := none
deriving DecidableEq, Repr

/-- The jsonParsed view of an account's data: either a parsed record
(`'parsed' in data && data.parsed?.info` holds) or an unparsed fallback. -/
inductive AccountData where
  | json (info : ParsedInfo)
  | binary
deriving DecidableEq, Repr

/-- An on-chain account as the RPC collaborator reports it: owning program,
jsonParsed view, and raw data bytes (what base64 responses encode). -/
structure Account where
  owner : Addr
  data : AccountData
  dataBytes : List Nat
deriving DecidableEq, Repr

/-- The network state: a finite account table. List order is the network
scan order of `getProgramAccounts`. -/
structure RpcState where
  accounts : List (Addr × Account)
deriving Repr

/-- `rpc.getAccountInfo(address)`: first table entry at the address. -/
def RpcState.getAccountInfo (s : RpcState) (a : Addr) : Option Account :=
  (s.accounts.find? fun p => p.1 == a).map Prod.snd

/-- The abl `Mode` enum (@token-acl/abl-sdk). -/
inductive Mode where
  | allow
  | block
deriving DecidableEq, Repr

/-- Decoded form of an abl ListConfig account, as produced by the external
`getListConfigDecoder` collaborator (mode, seed, authority). -/
structure DecodedListConfig where
  mode : Mode
  seed : Addr
  authority : Addr
deriving DecidableEq, Repr

/-- The external pure collaborators: deterministic address derivations and
the abl account decoders. They are out-of-scope dependencies (gill,
@token-acl/abl-sdk, @token-acl/sdk), so they are threaded in as explicit
values rather than reimplemented, as §6 of the spec prescribes. -/
structure Derive where
  /-- getAssociatedTokenAccountAddress mint owner tokenProgram. -/
  ata : Addr → Addr → Addr
  /-- findListConfigPda for authority and seed under ABL_PROGRAM_ID. -/
  listConfigPda : Addr → Addr → Addr
  /-- findWalletEntryPda for walletAddress and listConfig. -/
  walletEntryPda : Addr → Addr → Addr
  /-- findMintConfigPda for a mint under TOKEN_ACL_PROGRAM_ID. -/
  mintConfigPda : Addr → Addr
  /-- getListConfigDecoder().decode over raw bytes. -/
  decodeListConfig : List Nat → DecodedListConfig
  /-- getWalletEntryDecoder().decode over raw bytes, projected to the
  walletAddress field. -/
  decodeWalletEntry : List Nat → Addr
  /-- base58-decoded byte form of an address, as the memcmp filter of
  getProgramAccounts compares it server side. -/
  addrBytes : Addr → List Nat

/-- Error taxonomy: one constructor per distinct `throw new Error(...)` site
reached by the embedded functions. -/
inductive Err where
  /-- "Token account ... is not for mint ... but for ..." -/
  | mintMismatch
  /-- "Unable to parse token account data for ..." -/
  | unableToParseTokenAccount
  /-- "Token account ... is not a valid account for mint ..." -/
  | invalidAccount
  /-- "Mint account ... not found" -/
  | mintNotFound
  /-- "Unable to parse mint data for ..." -/
  | unableToParseMint
  /-- "Freeze authority account ... not found" -/
  | freezeAuthorityNotFound
  /-- fetchListConfig on a missing list configuration account. -/
  | listConfigNotFound
  /-- "This is not an ABL allowlist" -/
  | notAblAllowlist
  /-- "This is not an ABL blocklist" -/
  | notAblBlocklist
  /-- "Token account not found" (token-acl freeze helper). -/
  | tokenAccountNotFound
  /-- "Failed to parse token account data" (token-acl freeze helper). -/
  | failedToParseTokenAccount
deriving DecidableEq, Repr

/-- Result record of resolveTokenAccount. -/
structure ResolvedTokenAccount where
  tokenAccount : Addr
  isInitialized : Bool
  isFrozen : Bool
deriving DecidableEq, Repr

/-- packages/sdk/src management transaction-util `resolveTokenAccount`:
classifies an input address as an existing token account for the mint, an
invalid account, or a wallet whose associated token account is derived and
probed; a derived account that does not exist resolves to
`isInitialized = false, isFrozen = true`. -/
def resolveTokenAccount (d : Derive) (s : RpcState) (account mint : Addr) :
    Except Err ResolvedTokenAccount :=
  match s.getAccountInfo account with
  | some acc =>
    if acc.owner = TOKEN_2022_PROGRAM_ADDRESS then
      match acc.data with
      | .json info =>
        if info.mint = some mint then
          .ok ⟨account, true, info.state = some "frozen"⟩
        else
          .error .mintMismatch
      | .binary => .error .unableToParseTokenAccount
    else if acc.owner ≠ SYSTEM_PROGRAM_ADDRESS then
      .error .invalidAccount
    else
      resolveDerivedAta d s account mint
  | none => resolveDerivedAta d s account mint
where
  /-- The wallet branch: derive the associated token account and probe it;
  the probe reads only the jsonParsed state field. -/
  resolveDerivedAta (d : Derive) (s : RpcState) (account mint : Addr) :
      Except Err ResolvedTokenAccount :=
    match s.getAccountInfo (d.ata mint account) with
    | some ataAcc =>
      match ataAcc.data with
      | .json info => .ok ⟨d.ata mint account, true, info.state = some "frozen"⟩
      | .binary => .ok ⟨d.ata mint account, false, true⟩
    | none => .ok ⟨d.ata mint account, false, true⟩

/-- Result record of getMintDetails. -/
structure MintDetails where
  decimals : Option Nat
  freezeAuthority : Option Addr
  mintAuthority : Option Addr
  extensions : List Extension
  usesTokenAcl : Bool
deriving DecidableEq, Repr

/-- packages/sdk/src management transaction-util `getMintDetails`: fetches
the mint, fails when absent or unparsed, and resolves the freeze authority
account to decide `usesTokenAcl` by the program owning it. -/
def getMintDetails (s : RpcState) (mint : Addr) : Except Err MintDetails :=
  match s.getAccountInfo mint with
  | none => .error .mintNotFound
  | some acc =>
    match acc.data with
    | .binary => .error .unableToParseMint
    | .json info =>
      match info.freezeAuthority with
      | none =>
        .ok ⟨info.decimals, none, info.mintAuthority,
             info.extensions.getD [], false⟩
      | some fa =>
        match s.getAccountInfo fa with
        | none => .error .freezeAuthorityNotFound
        | some faAcc =>
          .ok ⟨info.decimals, some fa, info.mintAuthority,
               info.extensions.getD [], faAcc.owner == TOKEN_ACL_PROGRAM_ID⟩

/-- packages/sdk/src management transaction-util
`isDefaultAccountStateSetFrozen`. -/
def isDefaultAccountStateSetFrozen (extensions : List Extension) : Bool :=
  extensions.any fun ext =>
    ext.extension == "defaultAccountState" && ext.accountState == some "frozen"

/-- The duck-typed authority parameter `Address | TransactionSigner`: either a
plain address or a full signing capability, which the orchestrators only ever
project to its address (spec §9: `Signer = Known | Capable`). -/
inductive Authority where
  | addr (a : Addr)
  | signer (a : Addr)
deriving DecidableEq, Repr

/-- The address projection of an authority. -/
def Authority.address : Authority → Addr
  | .addr a => a
  | .signer a => a

/-- The recurring ternary
`typeof authority === 'string' ? createNoopSigner(authority) : authority`:
a plain address is wrapped into a no-op signer with the same address. -/
def Authority.asSigner : Authority → Authority
  | .addr a => .signer a
  | .signer a => .signer a

/-- An instruction, modelled as the external encoder invocation that built
it: the target program plus the argument record handed to the encoder (the
encoders themselves are out-of-scope collaborators, so a constructor per
encoder, carrying its arguments, is the opaque byte string of the spec). -/
inductive Instr where
  /-- getThawAccountInstruction (gill, token-extension program). -/
  | thawAccount (programAddress account mint owner : Addr)
  /-- getFreezeAccountInstruction (gill, token-extension program). -/
  | freezeAccount (programAddress account mint owner : Addr)
  /-- getAddWalletInstruction (@token-acl/abl-sdk). -/
  | addWallet (programAddress authority listConfig wallet walletEntry : Addr)
  /-- getRemoveWalletInstruction (@token-acl/abl-sdk). -/
  | removeWallet (programAddress authority listConfig walletEntry : Addr)
  /-- createThawPermissionlessInstructionWithExtraMetas (@token-acl/sdk). -/
  | thawPermissionless (programAddress authority tokenAccount mint tokenAccountOwner : Addr)
  /-- getFreezeInstruction (@token-acl/sdk). -/
  | freezeAcl (programAddress authority mintConfig mint tokenAccount : Addr)
deriving DecidableEq, Repr

/-- A list-membership mutation instruction (abl add/remove wallet). -/
def Instr.isMembership : Instr → Bool
  | .addWallet _ _ _ _ _ => true
  | .removeWallet _ _ _ _ => true
  | _ => false

/-- A freeze or thaw instruction (direct token-extension freeze/thaw, the
token-acl freeze, or the permissionless thaw). -/
def Instr.isFreezeThaw : Instr → Bool
  | .thawAccount _ _ _ _ => true
  | .freezeAccount _ _ _ _ => true
  | .thawPermissionless _ _ _ _ _ => true
  | .freezeAcl _ _ _ _ _ => true
  | _ => false

/-! ## Base64 and the JS `Uint8Array.from` coercion

The RPC collaborator returns raw account data as a base64 string; `getList`
decodes it with `Buffer.from(str, 'base64')` while `getAllListConfigs`
applies `Uint8Array.from(str)` to the string itself. Both byte extractions
are embedded here, together with an executable base64 codec (the codec also
serves the round-trip claim on transaction encodings). -/

/-- The base64 alphabet in index order. -/
def b64Alphabet : List Char :=
  ['A','B','C','D','E','F','G','H','I','J','K','L','M','N','O','P','Q','R',
   'S','T','U','V','W','X','Y','Z','a','b','c','d','e','f','g','h','i','j',
   'k','l','m','n','o','p','q','r','s','t','u','v','w','x','y','z','0','1',
   '2','3','4','5','6','7','8','9','+','/']

/-- Character of a sextet value. -/
def sextetChar (n : Nat) : Char := b64Alphabet.getD n '='

/-- Sextet value of an alphabet character. -/
def sextetVal (c : Char) : Nat := b64Alphabet.indexOf c

/-- RFC 4648 base64 of a byte list, as the character list. -/
def base64EncodeAux : List Nat → List Char
  | [] => []
  | [a] => [sextetChar (a / 4), sextetChar (a % 4 * 16), '=', '=']
  | [a, b] =>
    [sextetChar (a / 4), sextetChar (a % 4 * 16 + b / 16),
     sextetChar (b % 16 * 4), '=']
  | a :: b :: c :: rest =>
    sextetChar (a / 4) :: sextetChar (a % 4 * 16 + b / 16) ::
      sextetChar (b % 16 * 4 + c / 64) :: sextetChar (c % 64) ::
      base64EncodeAux rest

/-- RFC 4648 base64 of a byte list. -/
def base64Encode (bs : List Nat) : String := String.mk (base64EncodeAux bs)

/-- Base64 decoding over the character list, inverse of `base64EncodeAux`. -/
def base64DecodeAux : List Char → List Nat
  | a :: b :: c :: d :: rest =>
    if c = '=' then
      [sextetVal a * 4 + sextetVal b / 16]
    else if d = '=' then
      [sextetVal a * 4 + sextetVal b / 16,
       sextetVal b % 16 * 16 + sextetVal c / 4]
    else
      (sextetVal a * 4 + sextetVal b / 16) ::
        (sextetVal b % 16 * 16 + sextetVal c / 4) ::
        (sextetVal c % 4 * 64 + sextetVal d) :: base64DecodeAux rest
  | _ => []

/-- `Buffer.from(str, 'base64')`: base64 decoding of a string. -/
def base64Decode (s : String) : List Nat := base64DecodeAux s.toList

/-- JS `Uint8Array.from(str)` on a string: each character is coerced with
ToNumber and stored into the typed array, so a decimal digit becomes its
value and every other character (NaN) becomes 0; the result has one entry
per character of the string, not per decoded byte. -/
def uint8ArrayFromString (s : String) : List Nat :=
  s.toList.map fun c => if c.isDigit then c.toNat - 48 else 0

/-! ## List manager (packages/sdk/src/abl) -/

/-- A ListConfig record as the abl query functions return it. -/
structure ListConfigRec where
  listConfig : Addr
  mode : Mode
  seed : Addr
  authority : Addr
deriving DecidableEq, Repr

/-- A List record: the configuration plus the member wallets. -/
structure ListRec where
  listConfig : Addr
  mode : Mode
  seed : Addr
  authority : Addr
  wallets : List Addr
deriving DecidableEq, Repr

/-- abl `getListConfig`: fetchListConfig on the configuration account and
projection to mode, seed, authority. -/
def getListConfig (d : Derive) (s : RpcState) (listConfig : Addr) :
    Except Err ListConfigRec :=
  match s.getAccountInfo listConfig with
  | none => .error .listConfigNotFound
  | some acc =>
    let lc := d.decodeListConfig acc.dataBytes
    .ok ⟨listConfig, lc.mode, lc.seed, lc.authority⟩

/-- The memcmp filter of getProgramAccounts: the bytes at `offset` of the
account data equal `bytes`. -/
def memcmpAt (data : List Nat) (offset : Nat) (bytes : List Nat) : Bool :=
  (data.drop offset).take bytes.length == bytes

/-- abl `getList`: the configuration plus a scan of the program's accounts
of size 65 whose back-reference at offset 33 pins this list; each match's
base64 response is decoded with `Buffer.from(-, 'base64')` and handed to the
wallet-entry decoder. -/
def getList (d : Derive) (s : RpcState) (listConfig : Addr) :
    Except Err ListRec :=
  match getListConfig d s listConfig with
  | .error e => .error e
  | .ok cfg =>
    let wallets :=
      (s.accounts.filter fun p =>
        p.2.owner == ABL_PROGRAM_ID && p.2.dataBytes.length == 65 &&
          memcmpAt p.2.dataBytes 33 (d.addrBytes listConfig)).map
        fun p => d.decodeWalletEntry (base64Decode (base64Encode p.2.dataBytes))
    .ok ⟨cfg.listConfig, cfg.mode, cfg.seed, cfg.authority, wallets⟩

/-- abl `getAllListConfigs`: scans the program's accounts of the
configuration's fixed size 74 and decodes each; NOTE the source applies
`Uint8Array.from` to the base64 response string instead of base64-decoding
it, which is embedded faithfully here. -/
def getAllListConfigs (d : Derive) (s : RpcState) : List ListConfigRec :=
  (s.accounts.filter fun p =>
    p.2.owner == ABL_PROGRAM_ID && p.2.dataBytes.length == 74).map
    fun p =>
      let bytes := uint8ArrayFromString (base64Encode p.2.dataBytes)
      let lc := d.decodeListConfig bytes
      ⟨p.1, lc.mode, lc.seed, lc.authority⟩

/-- management/allowlist.ts `isAblAllowlist`: the fetched list's mode is
Allow. -/
def isAblAllowlist (d : Derive) (s : RpcState) (listConfig : Addr) :
    Except Err Bool :=
  match getList d s listConfig with
  | .error e => .error e
  | .ok l => .ok (l.mode == Mode.allow)

/-- management/blocklist.ts `isAblBlocklist`: the fetched list's mode is
Block. -/
def isAblBlocklist (d : Derive) (s : RpcState) (listConfig : Addr) :
    Except Err Bool :=
  match getList d s listConfig with
  | .error e => .error e
  | .ok l => .ok (l.mode == Mode.block)

/-- abl `getAddWalletInstructions`: derive the wallet entry and emit the add
instruction. -/
def getAddWalletInstructions (d : Derive) (authority : Authority)
    (wallet list : Addr) : List Instr :=
  [Instr.addWallet ABL_PROGRAM_ID authority.address list wallet
    (d.walletEntryPda wallet list)]

/-- abl `getRemoveWalletInstructions`: derive the wallet entry and emit the
remove instruction. -/
def getRemoveWalletInstructions (d : Derive) (authority : Authority)
    (wallet list : Addr) : List Instr :=
  [Instr.removeWallet ABL_PROGRAM_ID authority.address list
    (d.walletEntryPda wallet list)]

/-! ## token-acl helpers (packages/sdk/src/token-acl) -/

/-- token-acl `getThawPermissionlessInstructions`: one permissionless-thaw
instruction built by the external encoder; the extra-metas resolution inside
the encoder (which simulates the token account as frozen) is part of the
out-of-scope collaborator. -/
def getThawPermissionlessInstructions (authority : Authority)
    (mint tokenAccount tokenAccountOwner : Addr) : List Instr :=
  [Instr.thawPermissionless TOKEN_ACL_PROGRAM_ID authority.address
    tokenAccount mint tokenAccountOwner]

/-- token-acl `getFreezeInstructions`: re-fetches the token account, fails
when it is absent or unparsed, and emits one token-acl freeze instruction
for the mint parsed out of the fetched account (the parsed amount is read
but unused by the instruction, so it is not modelled; an absent parsed mint
field propagates as the JS `undefined` would, as a distinguished string). -/
def getFreezeInstructions (d : Derive) (s : RpcState) (authority : Authority)
    (tokenAccount : Addr) : Except Err (List Instr) :=
  match s.getAccountInfo tokenAccount with
  | none => .error .tokenAccountNotFound
  | some acc =>
    match acc.data with
    | .binary => .error .failedToParseTokenAccount
    | .json info =>
      let m := info.mint.getD "undefined"
      .ok [Instr.freezeAcl TOKEN_ACL_PROGRAM_ID authority.address
            (d.mintConfigPda m) m tokenAccount]

/-! ## Access-grant/revoke orchestrators
(management/allowlist.ts and management/blocklist.ts) -/

/-- management/allowlist.ts `getAddToAllowlistInstructions`. The source's
`accountSigner` binding is inlined as `authority.asSigner`, and its
`enableSrfc37` binding as the conjunction it names. -/
def getAddToAllowlistInstructions (d : Derive) (s : RpcState)
    (mint account : Addr) (authority : Authority) : Except Err (List Instr) :=
  match resolveTokenAccount d s account mint with
  | .error e => .error e
  | .ok r =>
    match getMintDetails s mint with
    | .error e => .error e
    | .ok md =>
      if !(md.usesTokenAcl && isDefaultAccountStateSetFrozen md.extensions) then
        .ok [Instr.thawAccount TOKEN_2022_PROGRAM_ADDRESS r.tokenAccount mint
              authority.asSigner.address]
      else
        match isAblAllowlist d s
            (d.listConfigPda authority.asSigner.address mint) with
        | .error e => .error e
        | .ok isAllow =>
          if !isAllow then .error .notAblAllowlist
          else
            .ok (getAddWalletInstructions d authority.asSigner account
                  (d.listConfigPda authority.asSigner.address mint) ++
              if r.isFrozen && r.isInitialized then
                getThawPermissionlessInstructions authority.asSigner mint
                  r.tokenAccount account
              else [])

/-- management/allowlist.ts `getRemoveFromAllowlistInstructions`. The
source's `useSrfc37 = enableSrfc37 ?? false` is the identity on a boolean;
note that the source gates the freeze on isFrozen, not !isFrozen. -/
def getRemoveFromAllowlistInstructions (d : Derive) (s : RpcState)
    (mint account : Addr) (authority : Authority) : Except Err (List Instr) :=
  match resolveTokenAccount d s account mint with
  | .error e => .error e
  | .ok r =>
    match getMintDetails s mint with
    | .error e => .error e
    | .ok md =>
      if !(md.usesTokenAcl && isDefaultAccountStateSetFrozen md.extensions) then
        .ok [Instr.freezeAccount TOKEN_2022_PROGRAM_ADDRESS r.tokenAccount mint
              authority.asSigner.address]
      else
        match isAblAllowlist d s
            (d.listConfigPda authority.asSigner.address mint) with
        | .error e => .error e
        | .ok isAllow =>
          if !isAllow then .error .notAblAllowlist
          else
            if r.isInitialized && r.isFrozen &&
                (md.usesTokenAcl &&
                  isDefaultAccountStateSetFrozen md.extensions) then
              match getFreezeInstructions d s authority.asSigner
                  r.tokenAccount with
              | .error e => .error e
              | .ok freezeIxs =>
                .ok (getRemoveWalletInstructions d authority.asSigner account
                      (d.listConfigPda authority.asSigner.address mint) ++
                  freezeIxs)
            else
              .ok (getRemoveWalletInstructions d authority.asSigner account
                    (d.listConfigPda authority.asSigner.address mint))

/-- management/blocklist.ts `getAddToBlocklistInstructions`. -/
def getAddToBlocklistInstructions (d : Derive) (s : RpcState)
    (mint account : Addr) (authority : Authority) : Except Err (List Instr) :=
  match resolveTokenAccount d s account mint with
  | .error e => .error e
  | .ok r =>
    match getMintDetails s mint with
    | .error e => .error e
    | .ok md =>
      if !(md.usesTokenAcl && isDefaultAccountStateSetFrozen md.extensions) then
        .ok [Instr.freezeAccount TOKEN_2022_PROGRAM_ADDRESS r.tokenAccount mint
              authority.asSigner.address]
      else
        match isAblBlocklist d s
            (d.listConfigPda authority.asSigner.address mint) with
        | .error e => .error e
        | .ok isBlock =>
          if !isBlock then .error .notAblBlocklist
          else
            if r.isInitialized && !r.isFrozen then
              match getFreezeInstructions d s authority.asSigner
                  r.tokenAccount with
              | .error e => .error e
              | .ok freezeIxs =>
                .ok (getAddWalletInstructions d authority.asSigner account
                      (d.listConfigPda authority.asSigner.address mint) ++
                  freezeIxs)
            else
              .ok (getAddWalletInstructions d authority.asSigner account
                    (d.listConfigPda authority.asSigner.address mint))

/-- management/blocklist.ts `getRemoveFromBlocklistInstructions`; the
source's `useSrfc37 = enableSrfc37 ?? false` is the identity on a
boolean. -/
def getRemoveFromBlocklistInstructions (d : Derive) (s : RpcState)
    (mint account : Addr) (authority : Authority) : Except Err (List Instr) :=
  match resolveTokenAccount d s account mint with
  | .error e => .error e
  | .ok r =>
    match getMintDetails s mint with
    | .error e => .error e
    | .ok md =>
      if !(md.usesTokenAcl && isDefaultAccountStateSetFrozen md.extensions) then
        .ok [Instr.thawAccount TOKEN_2022_PROGRAM_ADDRESS r.tokenAccount mint
              authority.asSigner.address]
      else
        match isAblBlocklist d s
            (d.listConfigPda authority.asSigner.address mint) with
        | .error e => .error e
        | .ok isBlock =>
          if !isBlock then .error .notAblBlocklist
          else
            if r.isInitialized && r.isFrozen &&
                (md.usesTokenAcl &&
                  isDefaultAccountStateSetFrozen md.extensions) then
              .ok (getRemoveWalletInstructions d authority.asSigner account
                    (d.listConfigPda authority.asSigner.address mint) ++
                getThawPermissionlessInstructions authority.asSigner mint
                  r.tokenAccount account)
            else
              .ok (getRemoveWalletInstructions d authority.asSigner account
                    (d.listConfigPda authority.asSigner.address mint))

/-! ## Transaction assembler encodings (management transaction-util)

`transactionToB58` and `transactionToB64` compile a full transaction with
the external `compileTransaction` and render the compiled message bytes as
base58 respectively base64 text. -/

/-- The base58 alphabet in index order (Bitcoin alphabet, as gill uses). -/
def b58Alphabet : List Char :=
  ['1','2','3','4','5','6','7','8','9','A','B','C','D','E','F','G','H','J',
   'K','L','M','N','P','Q','R','S','T','U','V','W','X','Y','Z','a','b','c',
   'd','e','f','g','h','i','j','k','m','n','o','p','q','r','s','t','u','v',
   'w','x','y','z']

/-- Character of a base58 digit. -/
def b58Char (n : Nat) : Char := b58Alphabet.getD n '1'

/-- Base58 digit value of an alphabet character. -/
def b58Val (c : Char) : Nat := b58Alphabet.indexOf c

/-- Little-endian base-58 digits of a number; 0 has no digits. -/
def natToLE58 (n : Nat) : List Nat :=
  if h : n = 0 then [] else n % 58 :: natToLE58 (n / 58)
decreasing_by exact Nat.div_lt_self (Nat.pos_of_ne_zero h) (by omega)

/-- Little-endian base-256 digits of a number; 0 has no digits. -/
def natToLE256 (n : Nat) : List Nat :=
  if h : n = 0 then [] else n % 256 :: natToLE256 (n / 256)
decreasing_by exact Nat.div_lt_self (Nat.pos_of_ne_zero h) (by omega)

/-- Value of a little-endian base-58 digit list. -/
def leVal58 : List Nat → Nat
  | [] => 0
  | d :: ds => d + 58 * leVal58 ds

/-- Value of a little-endian base-256 digit list. -/
def leVal256 : List Nat → Nat
  | [] => 0
  | d :: ds => d + 256 * leVal256 ds

/-- Modelled from the spec: the base58 text encoding of a byte string
(`getBase58Decoder().decode`, an external gill function): each leading zero
byte becomes the character 1, and the remainder is the big-endian base-58
numeral of the bytes read as a big-endian integer. -/
def base58Encode (bs : List Nat) : String :=
  String.mk (List.replicate (bs.takeWhile fun x => x == 0).length '1' ++
    (natToLE58 (leVal256 bs.reverse)).reverse.map b58Char)

/-- Modelled from the spec: base58 text decoding, the inverse direction the
round-trip requirement of §4.5 demands; leading 1 characters become zero
bytes and the remaining numeral is re-expanded into big-endian bytes. -/
def base58Decode (t : String) : List Nat :=
  List.replicate (t.toList.takeWhile fun c => c == '1').length 0 ++
    (natToLE256 (t.toList.foldl (fun acc c => acc * 58 + b58Val c) 0)).reverse

/-- A full transaction as `createTransaction` assembles it: fee payer,
instruction sequence in the supplied order, and the blockhash lifetime
anchor. -/
structure Transaction where
  feePayer : Addr
  instructions : List Instr
  latestBlockhash : Addr
deriving DecidableEq, Repr

/-- Modelled from the spec: the external `compileTransaction` (gill) turns a
transaction into compiled message bytes; it is kept abstract as a parameter,
and the claims compare the byte level the source exposes
(`compiledTransaction.messageBytes`). `transactionToB58` renders those bytes
as base58 text. -/
def transactionToB58 (compile : Transaction → List Nat) (tx : Transaction) :
    String :=
  base58Encode (compile tx)

/-- management transaction-util `transactionToB64`, over the same abstract
`compileTransaction`: the compiled message bytes rendered as base64 text. -/
def transactionToB64 (compile : Transaction → List Nat) (tx : Transaction) :
    String :=
  base64Encode (compile tx)

/-! ## Concrete collaborators and worlds used to evaluate the claims -/

/-- A concrete instantiation of the external derivation and decoding
collaborators, used to evaluate the embedded functions on closed inputs.
The list-config decoder reads the mode out of the first byte. -/
def dEx : Derive where
  ata := fun mint wallet => "ata:" ++ mint ++ ":" ++ wallet
  listConfigPda := fun authority seed => "list:" ++ authority ++ ":" ++ seed
  walletEntryPda := fun wallet list => "entry:" ++ wallet ++ ":" ++ list
  mintConfigPda := fun mint => "mintcfg:" ++ mint
  decodeListConfig := fun bs =>
    ⟨if bs.headD 0 == 1 then Mode.allow else Mode.block, "seed0", "auth0"⟩
  decodeWalletEntry := fun _ => "w0"
  addrBytes := fun _ => []

/-- A mint account whose jsonParsed info has no freeze authority: gating is
off regardless of extensions. -/
def legacyMintAccount : Account :=
  ⟨TOKEN_2022_PROGRAM_ADDRESS,
   .json { decimals := some 6 }, []⟩

/-- A mint account whose freeze authority is FA1 and whose default account
state extension is frozen. -/
def gatedMintAccount : Account :=
  ⟨TOKEN_2022_PROGRAM_ADDRESS,
   .json { decimals := some 6, freezeAuthority := some "FA1",
           extensions := some [⟨"defaultAccountState", some "frozen"⟩] }, []⟩

/-- The freeze-authority account FA1, owned by the Token ACL program. -/
def faAccount : Account := ⟨TOKEN_ACL_PROGRAM_ID, .binary, []⟩

/-- An initialized, frozen token account of MINT1. -/
def frozenTokenAccount : Account :=
  ⟨TOKEN_2022_PROGRAM_ADDRESS,
   .json { mint := some "MINT1", state := some "frozen" }, []⟩

/-- World: a legacy mint (no freeze authority) and nothing else. -/
def sLegacy : RpcState := ⟨[("MINT1", legacyMintAccount)]⟩

/-- World: gated MINT1 with an Allow-mode list for AUTH1 (first data byte 1
under `dEx`) and a frozen token account TOK1. -/
def sGatedAllow : RpcState :=
  ⟨[("MINT1", gatedMintAccount), ("FA1", faAccount),
    ("TOK1", frozenTokenAccount),
    ("list:AUTH1:MINT1", ⟨ABL_PROGRAM_ID, .binary, [1]⟩)]⟩

/-- World: gated MINT1 with a Block-mode list for AUTH1 (first data byte 0
under `dEx`) and a frozen token account TOK1. -/
def sGatedBlock : RpcState :=
  ⟨[("MINT1", gatedMintAccount), ("FA1", faAccount),
    ("TOK1", frozenTokenAccount),
    ("list:AUTH1:MINT1", ⟨ABL_PROGRAM_ID, .binary, [0]⟩)]⟩

/-- World: a single token account of MINT2, probed for MINT1. -/
def sMismatch : RpcState :=
  ⟨[("TOKX", ⟨TOKEN_2022_PROGRAM_ADDRESS,
     .json { mint := some "MINT2", state := some "initialized" }, []⟩)]⟩

/-- 74 raw data bytes of a list-config account whose first byte is 1 (an
Allow-mode configuration under the `dEx` decoder). -/
def c8Bytes : List Nat := 1 :: List.replicate 73 0

/-- World: one abl program account of the configuration size 74. -/
def sC8 : RpcState := ⟨[("LC1", ⟨ABL_PROGRAM_ID, .binary, c8Bytes⟩)]⟩

/-! ## Theorems -/

/-- Wrapping an authority into a no-op signer keeps its address. -/
theorem Authority.asSigner_address (a : Authority) :
    a.asSigner.address = a.address := by
  cases a <;> rfl

/--
C10: the emitted instruction sequence depends on the authority argument only
through its address: with the same collaborators, world, mint and account,
passing the plain address `a` and passing a full signing capability whose
address is `a` produce identical results, for each of the four grant/revoke
orchestrators.
-/
theorem orchestrators_depend_only_on_authority_address
    (d : Derive) (s : RpcState) (mint account a : Addr) :
    getAddToAllowlistInstructions d s mint account (.addr a) =
      getAddToAllowlistInstructions d s mint account (.signer a) ∧
    getRemoveFromAllowlistInstructions d s mint account (.addr a) =
      getRemoveFromAllowlistInstructions d s mint account (.signer a) ∧
    getAddToBlocklistInstructions d s mint account (.addr a) =
      getAddToBlocklistInstructions d s mint account (.signer a) ∧
    getRemoveFromBlocklistInstructions d s mint account (.addr a) =
      getRemoveFromBlocklistInstructions d s mint account (.signer a) := by
  refine ⟨?_, ?_, ?_, ?_⟩ <;> rfl

/--
C3: when enhanced gating is not active (`usesTokenAcl` false or the
default-account-state-frozen extension absent), each orchestrator returns
exactly one direct freeze or thaw instruction addressed to the
token-extension program at the resolved token account, and no
list-membership instruction.
-/
theorem legacy_path_single_direct_instruction
    (d : Derive) (s : RpcState) (mint account : Addr) (auth : Authority)
    (r : ResolvedTokenAccount) (md : MintDetails)
    (hres : resolveTokenAccount d s account mint = .ok r)
    (hmd : getMintDetails s mint = .ok md)
    (hgate : (md.usesTokenAcl && isDefaultAccountStateSetFrozen md.extensions)
      = false) :
    getAddToAllowlistInstructions d s mint account auth =
      .ok [Instr.thawAccount TOKEN_2022_PROGRAM_ADDRESS r.tokenAccount mint
            auth.address] ∧
    getRemoveFromAllowlistInstructions d s mint account auth =
      .ok [Instr.freezeAccount TOKEN_2022_PROGRAM_ADDRESS r.tokenAccount mint
            auth.address] ∧
    getAddToBlocklistInstructions d s mint account auth =
      .ok [Instr.freezeAccount TOKEN_2022_PROGRAM_ADDRESS r.tokenAccount mint
            auth.address] ∧
    getRemoveFromBlocklistInstructions d s mint account auth =
      .ok [Instr.thawAccount TOKEN_2022_PROGRAM_ADDRESS r.tokenAccount mint
            auth.address] := by
  unfold getAddToAllowlistInstructions getRemoveFromAllowlistInstructions
    getAddToBlocklistInstructions getRemoveFromBlocklistInstructions
  rw [hres, hmd]
  simp [hgate, Authority.asSigner_address]

/-- Witness for C3 at a closed input: a legacy mint and a wallet without an
associated token account. -/
theorem legacy_path_single_direct_instruction_witness :
    getAddToAllowlistInstructions dEx sLegacy "MINT1" "W1" (.addr "AUTH1") =
      .ok [Instr.thawAccount TOKEN_2022_PROGRAM_ADDRESS "ata:MINT1:W1" "MINT1"
            "AUTH1"] ∧
    getRemoveFromAllowlistInstructions dEx sLegacy "MINT1" "W1"
        (.addr "AUTH1") =
      .ok [Instr.freezeAccount TOKEN_2022_PROGRAM_ADDRESS "ata:MINT1:W1"
            "MINT1" "AUTH1"] ∧
    getAddToBlocklistInstructions dEx sLegacy "MINT1" "W1" (.addr "AUTH1") =
      .ok [Instr.freezeAccount TOKEN_2022_PROGRAM_ADDRESS "ata:MINT1:W1"
            "MINT1" "AUTH1"] ∧
    getRemoveFromBlocklistInstructions dEx sLegacy "MINT1" "W1"
        (.addr "AUTH1") =
      .ok [Instr.thawAccount TOKEN_2022_PROGRAM_ADDRESS "ata:MINT1:W1" "MINT1"
            "AUTH1"] :=
  legacy_path_single_direct_instruction dEx sLegacy "MINT1" "W1"
    (.addr "AUTH1") ⟨"ata:MINT1:W1", false, true⟩
    ⟨some 6, none, none, [], false⟩ rfl rfl rfl

/-- When the list configuration account exists, `isAblAllowlist` reports
whether the decoded mode is Allow. -/
theorem isAblAllowlist_of_lookup (d : Derive) (s : RpcState) (lc : Addr)
    (acc : Account) (h : s.getAccountInfo lc = some acc) :
    isAblAllowlist d s lc =
      .ok ((d.decodeListConfig acc.dataBytes).mode == Mode.allow) := by
  unfold isAblAllowlist getList getListConfig
  rw [h]

/-- When the list configuration account exists, `isAblBlocklist` reports
whether the decoded mode is Block. -/
theorem isAblBlocklist_of_lookup (d : Derive) (s : RpcState) (lc : Addr)
    (acc : Account) (h : s.getAccountInfo lc = some acc) :
    isAblBlocklist d s lc =
      .ok ((d.decodeListConfig acc.dataBytes).mode == Mode.block) := by
  unfold isAblBlocklist getList getListConfig
  rw [h]

/--
C2: on the gated path, when the list derived for (authority, mint) has a
mode that does not match the operation, the orchestrator fails with the
wrong-list-mode error (and hence returns zero instructions): Allow mode is
required by the allowlist operations, Block mode by the blocklist
operations.
-/
theorem wrong_list_mode_guard
    (d : Derive) (s : RpcState) (mint account : Addr) (auth : Authority)
    (r : ResolvedTokenAccount) (md : MintDetails) (lcAcc : Account)
    (hres : resolveTokenAccount d s account mint = .ok r)
    (hmd : getMintDetails s mint = .ok md)
    (hgate : (md.usesTokenAcl && isDefaultAccountStateSetFrozen md.extensions)
      = true)
    (hlc : s.getAccountInfo (d.listConfigPda auth.address mint) = some lcAcc) :
    ((d.decodeListConfig lcAcc.dataBytes).mode ≠ Mode.allow →
      getAddToAllowlistInstructions d s mint account auth =
        .error .notAblAllowlist ∧
      getRemoveFromAllowlistInstructions d s mint account auth =
        .error .notAblAllowlist) ∧
    ((d.decodeListConfig lcAcc.dataBytes).mode ≠ Mode.block →
      getAddToBlocklistInstructions d s mint account auth =
        .error .notAblBlocklist ∧
      getRemoveFromBlocklistInstructions d s mint account auth =
        .error .notAblBlocklist) := by
  unfold getAddToAllowlistInstructions getRemoveFromAllowlistInstructions
    getAddToBlocklistInstructions getRemoveFromBlocklistInstructions
  rw [hres, hmd]
  constructor
  · intro hne
    have hmode : ((d.decodeListConfig lcAcc.dataBytes).mode == Mode.allow)
        = false := by
      simpa using hne
    constructor <;>
      simp [Authority.asSigner_address, hgate, hmode,
        isAblAllowlist_of_lookup d s _ lcAcc hlc]
  · intro hne
    have hmode : ((d.decodeListConfig lcAcc.dataBytes).mode == Mode.block)
        = false := by
      simpa using hne
    constructor <;>
      simp [Authority.asSigner_address, hgate, hmode,
        isAblBlocklist_of_lookup d s _ lcAcc hlc]

/-- Witness for C2 at a closed input: a Block-mode list rejects both
allowlist operations, an Allow-mode list rejects both blocklist
operations, with zero instructions in each case. -/
theorem wrong_list_mode_guard_witness :
    (getAddToAllowlistInstructions dEx sGatedBlock "MINT1" "TOK1"
        (.addr "AUTH1") = .error .notAblAllowlist ∧
      getRemoveFromAllowlistInstructions dEx sGatedBlock "MINT1" "TOK1"
        (.addr "AUTH1") = .error .notAblAllowlist) ∧
    (getAddToBlocklistInstructions dEx sGatedAllow "MINT1" "TOK1"
        (.addr "AUTH1") = .error .notAblBlocklist ∧
      getRemoveFromBlocklistInstructions dEx sGatedAllow "MINT1" "TOK1"
        (.addr "AUTH1") = .error .notAblBlocklist) := by
  constructor
  · exact (wrong_list_mode_guard dEx sGatedBlock "MINT1" "TOK1" (.addr "AUTH1")
      ⟨"TOK1", true, true⟩
      ⟨some 6, some "FA1", none, [⟨"defaultAccountState", some "frozen"⟩],
        true⟩
      ⟨ABL_PROGRAM_ID, .binary, [0]⟩ rfl rfl rfl rfl).1 (by decide)
  · exact (wrong_list_mode_guard dEx sGatedAllow "MINT1" "TOK1" (.addr "AUTH1")
      ⟨"TOK1", true, true⟩
      ⟨some 6, some "FA1", none, [⟨"defaultAccountState", some "frozen"⟩],
        true⟩
      ⟨ABL_PROGRAM_ID, .binary, [1]⟩ rfl rfl rfl rfl).2 (by decide)

/--
C1 (evaluation at the failing input): on the gated path,
`getRemoveFromAllowlistInstructions` emits a freeze instruction for an
account that is initialized AND currently frozen — its gate is
`isInitialized && isFrozen`, not `isInitialized && !isFrozen` as the claim
(and the symmetric `getAddToBlocklistInstructions`) has it. Here TOK1
resolves as initialized and frozen, yet the returned list carries a
token-acl freeze instruction for it.
-/
theorem removeFromAllowlist_freezes_frozen_account :
    resolveTokenAccount dEx sGatedAllow "TOK1" "MINT1" =
      .ok ⟨"TOK1", true, true⟩ ∧
    getRemoveFromAllowlistInstructions dEx sGatedAllow "MINT1" "TOK1"
        (.addr "AUTH1") =
      .ok [Instr.removeWallet ABL_PROGRAM_ID "AUTH1" "list:AUTH1:MINT1"
            "entry:TOK1:list:AUTH1:MINT1",
           Instr.freezeAcl TOKEN_ACL_PROGRAM_ID "AUTH1" "mintcfg:MINT1"
            "MINT1" "TOK1"] :=
  ⟨rfl, rfl⟩

/-- Every successful result of the token-acl freeze helper consists of
freeze instructions only. -/
theorem getFreezeInstructions_freezeThaw (d : Derive) (s : RpcState)
    (auth : Authority) (ta : Addr) (is : List Instr)
    (h : getFreezeInstructions d s auth ta = .ok is) :
    ∀ i ∈ is, i.isFreezeThaw = true := by
  unfold getFreezeInstructions at h
  split at h
  · simp at h
  · split at h
    · simp at h
    · injection h with h'
      subst h'
      simp [Instr.isFreezeThaw]

/--
C7: every successful grant/revoke orchestrator result is ordered with all
list-membership mutation instructions strictly before any freeze or thaw
instruction: the list splits as a membership segment followed by a
freeze/thaw segment (on the legacy path the membership segment is empty).
-/
theorem membership_before_freeze_thaw
    (d : Derive) (s : RpcState) (mint account : Addr) (auth : Authority)
    (l : List Instr) :
    (getAddToAllowlistInstructions d s mint account auth = .ok l →
      ∃ ms fs, l = ms ++ fs ∧ (∀ i ∈ ms, i.isMembership = true) ∧
        (∀ i ∈ fs, i.isFreezeThaw = true)) ∧
    (getRemoveFromAllowlistInstructions d s mint account auth = .ok l →
      ∃ ms fs, l = ms ++ fs ∧ (∀ i ∈ ms, i.isMembership = true) ∧
        (∀ i ∈ fs, i.isFreezeThaw = true)) ∧
    (getAddToBlocklistInstructions d s mint account auth = .ok l →
      ∃ ms fs, l = ms ++ fs ∧ (∀ i ∈ ms, i.isMembership = true) ∧
        (∀ i ∈ fs, i.isFreezeThaw = true)) ∧
    (getRemoveFromBlocklistInstructions d s mint account auth = .ok l →
      ∃ ms fs, l = ms ++ fs ∧ (∀ i ∈ ms, i.isMembership = true) ∧
        (∀ i ∈ fs, i.isFreezeThaw = true)) := by
  refine ⟨?_, ?_, ?_, ?_⟩ <;> intro h
  · unfold getAddToAllowlistInstructions at h
    split at h
    · simp at h
    · split at h
      · simp at h
      · split at h
        · injection h with h'
          subst h'
          exact ⟨[], _, rfl, by simp, by simp [Instr.isFreezeThaw]⟩
        · split at h
          · simp at h
          · split at h
            · simp at h
            · injection h with h'
              subst h'
              refine ⟨_, _, rfl,
                by simp [getAddWalletInstructions, Instr.isMembership], ?_⟩
              intro i hi
              split at hi
              · simp [getThawPermissionlessInstructions] at hi
                subst hi
                rfl
              · simp at hi
  · unfold getRemoveFromAllowlistInstructions at h
    split at h
    · simp at h
    · split at h
      · simp at h
      · split at h
        · injection h with h'
          subst h'
          exact ⟨[], _, rfl, by simp, by simp [Instr.isFreezeThaw]⟩
        · split at h
          · simp at h
          · split at h
            · simp at h
            · split at h
              · split at h
                · simp at h
                · rename_i hfr
                  injection h with h'
                  subst h'
                  exact ⟨_, _, rfl,
                    by simp [getRemoveWalletInstructions, Instr.isMembership],
                    getFreezeInstructions_freezeThaw _ _ _ _ _ hfr⟩
              · injection h with h'
                subst h'
                exact ⟨_, [], (List.append_nil _).symm,
                  by simp [getRemoveWalletInstructions, Instr.isMembership],
                  by simp⟩
  · unfold getAddToBlocklistInstructions at h
    split at h
    · simp at h
    · split at h
      · simp at h
      · split at h
        · injection h with h'
          subst h'
          exact ⟨[], _, rfl, by simp, by simp [Instr.isFreezeThaw]⟩
        · split at h
          · simp at h
          · split at h
            · simp at h
            · split at h
              · split at h
                · simp at h
                · rename_i hfr
                  injection h with h'
                  subst h'
                  exact ⟨_, _, rfl,
                    by simp [getAddWalletInstructions, Instr.isMembership],
                    getFreezeInstructions_freezeThaw _ _ _ _ _ hfr⟩
              · injection h with h'
                subst h'
                exact ⟨_, [], (List.append_nil _).symm,
                  by simp [getAddWalletInstructions, Instr.isMembership],
                  by simp⟩
  · unfold getRemoveFromBlocklistInstructions at h
    split at h
    · simp at h
    · split at h
      · simp at h
      · split at h
        · injection h with h'
          subst h'
          exact ⟨[], _, rfl, by simp, by simp [Instr.isFreezeThaw]⟩
        · split at h
          · simp at h
          · split at h
            · simp at h
            · split at h
              · injection h with h'
                subst h'
                exact ⟨_, _, rfl,
                  by simp [getRemoveWalletInstructions, Instr.isMembership],
                  by simp [getThawPermissionlessInstructions,
                    Instr.isFreezeThaw]⟩
              · injection h with h'
                subst h'
                exact ⟨_, [], (List.append_nil _).symm,
                  by simp [getRemoveWalletInstructions, Instr.isMembership],
                  by simp⟩

/-- Witness for C7 at a closed input: revoke on a gated blocklist with a
frozen initialized account yields exactly one remove-wallet instruction
followed by one thaw instruction, which splits as required. -/
theorem membership_before_freeze_thaw_witness :
    ∃ ms fs,
      [Instr.removeWallet ABL_PROGRAM_ID "AUTH1" "list:AUTH1:MINT1"
        "entry:TOK1:list:AUTH1:MINT1",
       Instr.thawPermissionless TOKEN_ACL_PROGRAM_ID "AUTH1" "TOK1" "MINT1"
        "TOK1"] = ms ++ fs ∧
      (∀ i ∈ ms, i.isMembership = true) ∧ (∀ i ∈ fs, i.isFreezeThaw = true) :=
  (membership_before_freeze_thaw dEx sGatedBlock "MINT1" "TOK1"
    (.addr "AUTH1") _).2.2.2 rfl

/-- The derived-account branch of the resolver keeps the frozen-default
policy: an uninitialized result is always reported frozen. -/
theorem resolveDerivedAta_uninitialized_frozen (d : Derive) (s : RpcState)
    (account mint : Addr) (r : ResolvedTokenAccount)
    (h : resolveTokenAccount.resolveDerivedAta d s account mint = .ok r)
    (hinit : r.isInitialized = false) : r.isFrozen = true := by
  unfold resolveTokenAccount.resolveDerivedAta at h
  split at h
  · split at h
    · injection h with he
      subst he
      simp at hinit
    · injection h with he
      subst he
      rfl
  · injection h with he
    subst he
    rfl

/--
C4: the frozen-default invariant: every successful result of
`resolveTokenAccount` with `isInitialized = false` has `isFrozen = true`
(a not-yet-created associated token account is reported as frozen).
-/
theorem resolveTokenAccount_uninitialized_frozen
    (d : Derive) (s : RpcState) (account mint : Addr)
    (r : ResolvedTokenAccount)
    (h : resolveTokenAccount d s account mint = .ok r)
    (hinit : r.isInitialized = false) : r.isFrozen = true := by
  unfold resolveTokenAccount at h
  split at h
  · split at h
    · split at h
      · split at h
        · injection h with he
          subst he
          simp at hinit
        · simp at h
      · simp at h
    · split at h
      · simp at h
      · exact resolveDerivedAta_uninitialized_frozen d s _ _ r h hinit
  · exact resolveDerivedAta_uninitialized_frozen d s _ _ r h hinit

/-- Witness for C4 at a closed input: a wallet without an associated token
account resolves as uninitialized, and the invariant yields frozen. -/
theorem resolveTokenAccount_uninitialized_frozen_witness :
    resolveTokenAccount dEx sLegacy "W1" "MINT1" =
      .ok ⟨"ata:MINT1:W1", false, true⟩ ∧
    (⟨"ata:MINT1:W1", false, true⟩ : ResolvedTokenAccount).isFrozen = true :=
  ⟨rfl, resolveTokenAccount_uninitialized_frozen dEx sLegacy "W1" "MINT1"
    ⟨"ata:MINT1:W1", false, true⟩ rfl rfl⟩

/-- The derived-account branch of the resolver never fails. -/
theorem resolveDerivedAta_ne_error (d : Derive) (s : RpcState)
    (account mint : Addr) (e : Err) :
    resolveTokenAccount.resolveDerivedAta d s account mint ≠ .error e := by
  intro hc
  unfold resolveTokenAccount.resolveDerivedAta at hc
  split at hc
  · split at hc <;> simp at hc
  · simp at hc

/--
C5: `resolveTokenAccount` fails with the mint-mismatch error exactly when
the supplied account exists, is owned by the token-extension program, and
its parsed mint differs from the requested mint; it fails with the
invalid-account error exactly when the account exists but is owned by
neither the token-extension program nor the base system program. In both
cases the result is an error, so no token-account state is returned.
-/
theorem resolveTokenAccount_failure_classification
    (d : Derive) (s : RpcState) (account mint : Addr) :
    (resolveTokenAccount d s account mint = .error .mintMismatch ↔
      ∃ acc info, s.getAccountInfo account = some acc ∧
        acc.owner = TOKEN_2022_PROGRAM_ADDRESS ∧
        acc.data = .json info ∧ info.mint ≠ some mint) ∧
    (resolveTokenAccount d s account mint = .error .invalidAccount ↔
      ∃ acc, s.getAccountInfo account = some acc ∧
        acc.owner ≠ TOKEN_2022_PROGRAM_ADDRESS ∧
        acc.owner ≠ SYSTEM_PROGRAM_ADDRESS) := by
  cases hacc : s.getAccountInfo account with
  | none =>
    have hEq : resolveTokenAccount d s account mint =
        resolveTokenAccount.resolveDerivedAta d s account mint := by
      unfold resolveTokenAccount
      rw [hacc]
    rw [hEq]
    constructor
    · constructor
      · intro hc
        exact absurd hc (resolveDerivedAta_ne_error d s account mint _)
      · rintro ⟨acc, info, hlk, -⟩
        cases hlk
    · constructor
      · intro hc
        exact absurd hc (resolveDerivedAta_ne_error d s account mint _)
      · rintro ⟨acc, hlk, -⟩
        cases hlk
  | some acc =>
    by_cases hT : acc.owner = TOKEN_2022_PROGRAM_ADDRESS
    · cases hdata : acc.data with
      | json info =>
        by_cases hm : info.mint = some mint
        · have hEq : resolveTokenAccount d s account mint =
              .ok ⟨account, true, info.state = some "frozen"⟩ := by
            unfold resolveTokenAccount
            rw [hacc]
            simp [hT, hdata, hm]
          rw [hEq]
          simp [hacc, hT, hdata, hm]
        · have hEq : resolveTokenAccount d s account mint =
              .error .mintMismatch := by
            unfold resolveTokenAccount
            rw [hacc]
            simp [hT, hdata, hm]
          rw [hEq]
          simp [hacc, hT, hdata, hm]
      | binary =>
        have hEq : resolveTokenAccount d s account mint =
            .error .unableToParseTokenAccount := by
          unfold resolveTokenAccount
          rw [hacc]
          simp [hT, hdata]
        rw [hEq]
        simp [hacc, hT, hdata]
    · by_cases hS : acc.owner = SYSTEM_PROGRAM_ADDRESS
      · have hEq : resolveTokenAccount d s account mint =
            resolveTokenAccount.resolveDerivedAta d s account mint := by
          unfold resolveTokenAccount
          rw [hacc]
          simp [hS, hT,
            show ¬(SYSTEM_PROGRAM_ADDRESS = TOKEN_2022_PROGRAM_ADDRESS) from
              by decide]
        rw [hEq]
        constructor
        · constructor
          · intro hc
            exact absurd hc (resolveDerivedAta_ne_error d s account mint _)
          · rintro ⟨acc', info, hlk, hT', -⟩
            injection hlk with he
            subst he
            exact absurd hT' hT
        · constructor
          · intro hc
            exact absurd hc (resolveDerivedAta_ne_error d s account mint _)
          · rintro ⟨acc', hlk, -, hS'⟩
            injection hlk with he
            subst he
            exact absurd hS hS'
      · have hEq : resolveTokenAccount d s account mint =
            .error .invalidAccount := by
          unfold resolveTokenAccount
          rw [hacc]
          simp [hT, hS]
        rw [hEq]
        constructor
        · simp [hT]
        · simp [hT, hS]

/-- Witness for C5 at closed inputs: a token account of another mint fails
with the mint-mismatch error; an account owned by a third program fails
with the invalid-account error. -/
theorem resolveTokenAccount_failure_classification_witness :
    resolveTokenAccount dEx sMismatch "TOKX" "MINT1" =
      .error .mintMismatch ∧
    resolveTokenAccount dEx ⟨[("TOKY", ⟨"SomeOtherProgram", .binary, []⟩)]⟩
      "TOKY" "MINT1" = .error .invalidAccount := by
  constructor
  · exact (resolveTokenAccount_failure_classification dEx sMismatch "TOKX"
      "MINT1").1.mpr
      ⟨⟨TOKEN_2022_PROGRAM_ADDRESS,
        .json { mint := some "MINT2", state := some "initialized" }, []⟩,
       { mint := some "MINT2", state := some "initialized" },
       rfl, rfl, rfl, by decide⟩
  · exact (resolveTokenAccount_failure_classification dEx
      ⟨[("TOKY", ⟨"SomeOtherProgram", .binary, []⟩)]⟩ "TOKY" "MINT1").2.mpr
      ⟨⟨"SomeOtherProgram", .binary, []⟩, rfl, by decide, by decide⟩

/--
C6: `getMintDetails` fails with the not-found error when the mint account
is absent; and on every successful result, if the mint's freeze authority
is unset the `usesTokenAcl` flag is false, while if it is set the account
at the freeze-authority address exists and the flag is true exactly when
that account is owned by the Token ACL program.
-/
theorem getMintDetails_gating_flag (s : RpcState) (mint : Addr) :
    (s.getAccountInfo mint = none →
      getMintDetails s mint = .error .mintNotFound) ∧
    (∀ md, getMintDetails s mint = .ok md →
      (md.freezeAuthority = none → md.usesTokenAcl = false) ∧
      (∀ fa, md.freezeAuthority = some fa →
        ∃ acc, s.getAccountInfo fa = some acc ∧
          (md.usesTokenAcl = true ↔ acc.owner = TOKEN_ACL_PROGRAM_ID))) := by
  constructor
  · intro hnone
    unfold getMintDetails
    rw [hnone]
  · intro md h
    unfold getMintDetails at h
    split at h
    · simp at h
    · split at h
      · simp at h
      · split at h
        · injection h with he
          subst he
          refine ⟨fun _ => rfl, fun fa hfa => ?_⟩
          cases hfa
        · split at h
          · simp at h
          · injection h with he
            subst he
            constructor
            · intro hnone
              cases hnone
            · intro fa hfa
              injection hfa with he'
              subst he'
              rename_i info heqFa acc heqAcc
              exact ⟨acc, heqAcc, by simp⟩

/-- Witness for C6 at closed inputs: an absent mint yields the not-found
error, and the gated example mint resolves its freeze authority FA1 to an
account owned by the Token ACL program, so the flag is true. -/
theorem getMintDetails_gating_flag_witness :
    getMintDetails sLegacy "NOPE" = .error .mintNotFound ∧
    ∃ acc, sGatedAllow.getAccountInfo "FA1" = some acc ∧
      ((⟨some 6, some "FA1", none,
          [⟨"defaultAccountState", some "frozen"⟩], true⟩ :
        MintDetails).usesTokenAcl = true ↔
        acc.owner = TOKEN_ACL_PROGRAM_ID) := by
  constructor
  · exact (getMintDetails_gating_flag sLegacy "NOPE").1 rfl
  · exact ((getMintDetails_gating_flag sGatedAllow "MINT1").2
      ⟨some 6, some "FA1", none, [⟨"defaultAccountState", some "frozen"⟩],
        true⟩ rfl).2 "FA1" rfl

/-! ### Base64 round trip -/

/-- The base64 alphabet inverts its own indexing. -/
theorem sextetVal_sextetChar : ∀ n < 64, sextetVal (sextetChar n) = n := by
  decide

/-- No alphabet character is the padding character. -/
theorem sextetChar_ne_pad : ∀ n < 64, sextetChar n ≠ '=' := by
  decide

/-- Decoding inverts encoding on byte lists, at the character level. -/
theorem base64DecodeAux_encodeAux :
    ∀ (n : Nat) (bs : List Nat), bs.length ≤ n → (∀ x ∈ bs, x < 256) →
      base64DecodeAux (base64EncodeAux bs) = bs := by
  intro n
  induction n with
  | zero =>
    intro bs hlen _
    have hnil : bs = [] := List.eq_nil_of_length_eq_zero (Nat.le_zero.mp hlen)
    subst hnil
    rfl
  | succ n ih =>
    intro bs hlen hmem
    match bs with
    | [] => rfl
    | [a] =>
      have ha : a < 256 := hmem a (by simp)
      simp only [base64EncodeAux, base64DecodeAux, if_pos rfl]
      rw [sextetVal_sextetChar _ (by omega), sextetVal_sextetChar _ (by omega)]
      have hval : a / 4 * 4 + a % 4 * 16 / 16 = a := by omega
      rw [hval]
      simp
    | [a, b] =>
      have ha : a < 256 := hmem a (by simp)
      have hb : b < 256 := hmem b (by simp)
      simp only [base64EncodeAux, base64DecodeAux,
        if_neg (sextetChar_ne_pad (b % 16 * 4) (by omega)), if_pos rfl]
      rw [sextetVal_sextetChar _ (by omega), sextetVal_sextetChar _ (by omega),
        sextetVal_sextetChar _ (by omega)]
      have hva : a / 4 * 4 + (a % 4 * 16 + b / 16) / 16 = a := by omega
      have hvb : (a % 4 * 16 + b / 16) % 16 * 16 + b % 16 * 4 / 4 = b := by
        omega
      rw [hva, hvb]
      simp
    | a :: b :: c :: rest =>
      have ha : a < 256 := hmem a (by simp)
      have hb : b < 256 := hmem b (by simp)
      have hc : c < 256 := hmem c (by simp)
      simp only [base64EncodeAux, base64DecodeAux,
        if_neg (sextetChar_ne_pad (b % 16 * 4 + c / 64) (by omega)),
        if_neg (sextetChar_ne_pad (c % 64) (by omega))]
      rw [sextetVal_sextetChar _ (by omega), sextetVal_sextetChar _ (by omega),
        sextetVal_sextetChar _ (by omega), sextetVal_sextetChar _ (by omega)]
      have hva : a / 4 * 4 + (a % 4 * 16 + b / 16) / 16 = a := by omega
      have hvb : (a % 4 * 16 + b / 16) % 16 * 16 +
          (b % 16 * 4 + c / 64) / 4 = b := by omega
      have hvc : (b % 16 * 4 + c / 64) % 4 * 64 + c % 64 = c := by omega
      rw [hva, hvb, hvc,
        ih rest (by simp at hlen; omega) fun x hx => hmem x (by simp [hx])]

/-- Base64 decoding inverts base64 encoding on byte lists. -/
theorem base64_roundtrip (bs : List Nat) (hmem : ∀ x ∈ bs, x < 256) :
    base64Decode (base64Encode bs) = bs := by
  unfold base64Decode base64Encode
  exact base64DecodeAux_encodeAux bs.length bs le_rfl hmem

/-! ### Base58 round trip -/

/-- The base58 alphabet inverts its own indexing. -/
theorem b58Val_b58Char : ∀ n < 58, b58Val (b58Char n) = n := by
  decide

/-- The character of the digit 0. -/
theorem b58Val_one : b58Val '1' = 0 := by
  decide

/-- Only the digit 0 maps to the character 1. -/
theorem b58Char_eq_one_iff : ∀ n < 58, (b58Char n = '1' ↔ n = 0) := by
  decide

/-- Unfolding `natToLE58` at zero. -/
theorem natToLE58_zero : natToLE58 0 = [] := by
  simp [natToLE58]

/-- Unfolding `natToLE58` at a positive number. -/
theorem natToLE58_pos (n : Nat) (h : n ≠ 0) :
    natToLE58 n = n % 58 :: natToLE58 (n / 58) := by
  conv_lhs => rw [natToLE58]
  simp [h]

/-- Unfolding `natToLE256` at zero. -/
theorem natToLE256_zero : natToLE256 0 = [] := by
  simp [natToLE256]

/-- Unfolding `natToLE256` at a positive number. -/
theorem natToLE256_pos (n : Nat) (h : n ≠ 0) :
    natToLE256 n = n % 256 :: natToLE256 (n / 256) := by
  conv_lhs => rw [natToLE256]
  simp [h]

/-- The base-58 digit expansion has no digits exactly for zero. -/
theorem natToLE58_eq_nil_iff (n : Nat) : natToLE58 n = [] ↔ n = 0 := by
  constructor
  · intro h
    by_contra hn
    rw [natToLE58_pos n hn] at h
    cases h
  · intro h
    subst h
    exact natToLE58_zero

/-- Every digit of the base-58 expansion is below 58. -/
theorem natToLE58_digits_lt (n : Nat) : ∀ d ∈ natToLE58 n, d < 58 := by
  induction n using Nat.strong_induction_on with
  | _ n ih =>
    by_cases hn : n = 0
    · subst hn
      rw [natToLE58_zero]
      simp
    · rw [natToLE58_pos n hn]
      intro d hd
      rcases List.mem_cons.mp hd with h | h
      · subst h
        omega
      · exact ih (n / 58) (Nat.div_lt_self (Nat.pos_of_ne_zero hn)
          (by omega)) d h

/-- The base-58 expansion's value is the number it expands. -/
theorem leVal58_natToLE58 (n : Nat) : leVal58 (natToLE58 n) = n := by
  induction n using Nat.strong_induction_on with
  | _ n ih =>
    by_cases hn : n = 0
    · subst hn
      rw [natToLE58_zero]
      rfl
    · rw [natToLE58_pos n hn]
      simp only [leVal58]
      rw [ih (n / 58) (Nat.div_lt_self (Nat.pos_of_ne_zero hn) (by omega))]
      omega

/-- The most significant digit of a positive base-58 expansion is not 0. -/
theorem natToLE58_getLast?_ne_zero (n : Nat) :
    (natToLE58 n).getLast? ≠ some 0 := by
  induction n using Nat.strong_induction_on with
  | _ n ih =>
    by_cases hn : n = 0
    · subst hn
      rw [natToLE58_zero]
      simp
    · rw [natToLE58_pos n hn]
      by_cases h58 : n / 58 = 0
      · rw [h58, natToLE58_zero]
        have : n % 58 ≠ 0 := by omega
        simp [this]
      · cases hcons : natToLE58 (n / 58) with
        | nil => exact absurd ((natToLE58_eq_nil_iff _).mp hcons) h58
        | cons e t =>
          rw [List.getLast?_cons_cons]
          rw [← hcons]
          exact ih (n / 58) (Nat.div_lt_self (Nat.pos_of_ne_zero hn)
            (by omega))

/-- A little-endian digit list whose top digit is nonzero has positive
value. -/
theorem leVal256_pos (ds : List Nat) (hne : ds ≠ [])
    (hlast : ds.getLast? ≠ some 0) : 0 < leVal256 ds := by
  induction ds with
  | nil => exact absurd rfl hne
  | cons d t ih =>
    cases t with
    | nil =>
      simp at hlast
      simp [leVal256]
      omega
    | cons e t' =>
      rw [List.getLast?_cons_cons] at hlast
      have hpos := ih (by simp) hlast
      have hval : leVal256 (d :: e :: t') = d + 256 * leVal256 (e :: t') :=
        rfl
      omega

/-- Re-expanding the value of a little-endian byte list whose top digit is
nonzero gives the list back. -/
theorem natToLE256_leVal256 (ds : List Nat) (hmem : ∀ x ∈ ds, x < 256)
    (hlast : ds.getLast? ≠ some 0) : natToLE256 (leVal256 ds) = ds := by
  induction ds with
  | nil => exact natToLE256_zero
  | cons d t ih =>
    cases t with
    | nil =>
      have hd : d ≠ 0 := by simpa using hlast
      have hd256 : d < 256 := hmem d (by simp)
      have hval : leVal256 [d] = d := by simp [leVal256]
      rw [hval, natToLE256_pos d hd, Nat.mod_eq_of_lt hd256,
        Nat.div_eq_of_lt hd256, natToLE256_zero]
    | cons e t' =>
      rw [List.getLast?_cons_cons] at hlast
      have hpos : 0 < leVal256 (e :: t') := leVal256_pos _ (by simp) hlast
      have hd256 : d < 256 := hmem d (by simp)
      have hval : leVal256 (d :: e :: t') = d + 256 * leVal256 (e :: t') :=
        rfl
      rw [hval, natToLE256_pos _ (by omega)]
      have hmod : (d + 256 * leVal256 (e :: t')) % 256 = d := by omega
      have hdiv : (d + 256 * leVal256 (e :: t')) / 256 =
          leVal256 (e :: t') := by omega
      rw [hmod, hdiv, ih (fun x hx => hmem x (by simp [hx])) hlast]

/-- Appending zero digits above the top of a little-endian digit list does
not change its value. -/
theorem leVal256_append_zeros (l : List Nat) (z : Nat) :
    leVal256 (l ++ List.replicate z 0) = leVal256 l := by
  induction l with
  | nil =>
    induction z with
    | zero => rfl
    | succ z ih =>
      simp only [List.nil_append, List.replicate_succ, leVal256] at *
      omega
  | cons d t ih =>
    have h1 : leVal256 ((d :: t) ++ List.replicate z 0) =
        d + 256 * leVal256 (t ++ List.replicate z 0) := rfl
    have h2 : leVal256 (d :: t) = d + 256 * leVal256 t := rfl
    omega

/-- Leading characters 1 contribute nothing to the decoder's accumulator. -/
theorem foldl58_replicate_one (z : Nat) (l : List Char) :
    (List.replicate z '1' ++ l).foldl (fun acc c => acc * 58 + b58Val c) 0 =
      l.foldl (fun acc c => acc * 58 + b58Val c) 0 := by
  induction z with
  | zero => rfl
  | succ z ih =>
    simp only [List.replicate_succ, List.cons_append, List.foldl_cons,
      b58Val_one]
    exact ih

/-- Folding the decoder over the characters of a digit expansion (most
significant first) recovers the expansion's value. -/
theorem foldl58_digit_chars (ds : List Nat) (hmem : ∀ x ∈ ds, x < 58) :
    (ds.reverse.map b58Char).foldl (fun acc c => acc * 58 + b58Val c) 0 =
      leVal58 ds := by
  induction ds with
  | nil => rfl
  | cons d t ih =>
    simp only [List.reverse_cons, List.map_append, List.foldl_append,
      List.map_cons, List.map_nil, List.foldl_cons, List.foldl_nil]
    rw [ih fun x hx => hmem x (by simp [hx]),
      b58Val_b58Char d (hmem d (by simp))]
    simp only [leVal58]
    omega

/-- A take-while over leading characters 1 stops exactly at the first
character of the remainder when that character is not 1. -/
theorem takeWhile_one_replicate (z : Nat) (l : List Char)
    (hl : ∀ c, l.head? = some c → (c == '1') = false) :
    ((List.replicate z '1' ++ l).takeWhile fun c => c == '1') =
      List.replicate z '1' := by
  induction z with
  | zero =>
    cases l with
    | nil => rfl
    | cons c t =>
      simp [List.takeWhile_cons, hl c rfl]
  | succ z ih =>
    simp only [List.replicate_succ, List.cons_append, List.takeWhile_cons]
    simp [ih]

/-- The zero prefix taken by the encoder is literally a replicate of zero
bytes. -/
theorem takeWhile_zero_eq_replicate (l : List Nat) :
    l.takeWhile (fun x => x == 0) =
      List.replicate (l.takeWhile fun x => x == 0).length 0 := by
  induction l with
  | nil => rfl
  | cons d t ih =>
    by_cases hd : d = 0
    · subst hd
      simp only [List.takeWhile_cons, beq_self_eq_true, if_true,
        List.length_cons, List.replicate_succ]
      conv_lhs => rw [ih]
    · have : ((d : Nat) == 0) = false := by simpa using hd
      simp [List.takeWhile_cons, this]

/-- The first byte surviving the encoder's zero-stripping is nonzero. -/
theorem head?_dropWhile_zero (l : List Nat) (c : Nat)
    (h : (l.dropWhile fun x => x == 0).head? = some c) : c ≠ 0 := by
  induction l with
  | nil => simp at h
  | cons d t ih =>
    by_cases hd : d = 0
    · subst hd
      simp only [List.dropWhile_cons] at h
      simp at h
      exact ih h
    · have hb : ((d : Nat) == 0) = false := by simpa using hd
      rw [List.dropWhile_cons, hb] at h
      simp at h
      omega

/-- The character list of a constructed string. -/
theorem toList_mk (cs : List Char) : (String.mk cs).toList = cs := rfl

/-- Base58 decoding inverts base58 encoding on byte lists. -/
theorem base58_roundtrip (bs : List Nat) (hmem : ∀ x ∈ bs, x < 256) :
    base58Decode (base58Encode bs) = bs := by
  have hsplit : (bs.takeWhile fun x => x == 0) ++
      (bs.dropWhile fun x => x == 0) = bs :=
    List.takeWhile_append_dropWhile _ _
  have hz : bs.takeWhile (fun x => x == 0) =
      List.replicate (bs.takeWhile fun x => x == 0).length 0 :=
    takeWhile_zero_eq_replicate bs
  have hdropmem : ∀ x ∈ bs.dropWhile fun y => y == 0, x < 256 := fun x hx =>
    hmem x ((List.dropWhile_sublist _).mem hx)
  have hrevN : leVal256 bs.reverse =
      leVal256 (bs.dropWhile fun x => x == 0).reverse := by
    conv_lhs => rw [← hsplit]
    rw [hz, List.reverse_append, List.reverse_replicate,
      leVal256_append_zeros]
  unfold base58Encode base58Decode
  rw [toList_mk]
  cases hdrop : bs.dropWhile fun x => x == 0 with
  | nil =>
    have hbs : bs = List.replicate (bs.takeWhile fun x => x == 0).length 0 :=
      by
      conv_lhs => rw [← hsplit, hdrop, List.append_nil, hz]
    have hN : leVal256 bs.reverse = 0 := by
      rw [hrevN, hdrop]
      rfl
    rw [hN, natToLE58_zero]
    simp only [List.reverse_nil, List.map_nil]
    rw [takeWhile_one_replicate _ [] (by intro c hc; cases hc),
      foldl58_replicate_one _ []]
    simp only [List.foldl_nil, List.length_replicate, natToLE256_zero,
      List.reverse_nil, List.append_nil]
    exact hbs.symm
  | cons r t =>
    have hhead : ((bs.dropWhile fun x => x == 0).head? = some r) := by
      rw [hdrop]
      rfl
    have hr : r ≠ 0 := head?_dropWhile_zero bs r hhead
    have hlastrev : (r :: t).reverse.getLast? ≠ some 0 := by
      rw [List.getLast?_reverse]
      simpa using hr
    have hNpos : 0 < leVal256 (r :: t).reverse :=
      leVal256_pos _ (by simp) hlastrev
    have hN : leVal256 bs.reverse = leVal256 (r :: t).reverse := by
      rw [hrevN, hdrop]
    rw [hN]
    have hheadchar : ∀ c,
        ((natToLE58 (leVal256 (r :: t).reverse)).reverse.map b58Char).head? =
          some c → (c == '1') = false := by
      intro c hc
      rw [List.head?_map, List.head?_reverse] at hc
      cases hlast : (natToLE58 (leVal256 (r :: t).reverse)).getLast? with
      | none =>
        rw [hlast] at hc
        cases hc
      | some dgt =>
        rw [hlast] at hc
        simp only [Option.map_some'] at hc
        injection hc with hc'
        subst hc'
        have hdlt : dgt < 58 := natToLE58_digits_lt _ dgt
          (List.mem_of_getLast?_eq_some hlast)
        have hdne : dgt ≠ 0 := by
          intro h0
          subst h0
          exact natToLE58_getLast?_ne_zero _ hlast
        simp only [beq_eq_false_iff_ne, ne_eq]
        intro hcontra
        exact hdne ((b58Char_eq_one_iff dgt hdlt).mp hcontra)
    have hmemrev : ∀ x ∈ (r :: t).reverse, x < 256 := by
      intro x hx
      apply hdropmem
      rw [hdrop]
      exact List.mem_reverse.mp hx
    rw [takeWhile_one_replicate _ _ hheadchar, List.length_replicate,
      foldl58_replicate_one,
      foldl58_digit_chars _ (natToLE58_digits_lt _), leVal58_natToLE58,
      natToLE256_leVal256 _ hmemrev hlastrev, List.reverse_reverse]
    conv_rhs => rw [← hsplit, hz, hdrop]

/--
C9: round-trip invertibility of the transaction text encodings: for every
compiled transaction whose message bytes are octets, decoding the base58
respectively base64 rendering produced by `transactionToB58` and
`transactionToB64` reproduces the identical compiled message bytes (and
hence a transaction with the same instruction bytes, ordering and fee
payer, since those are functions of the compiled message).
-/
theorem transaction_encoding_roundtrip
    (compile : Transaction → List Nat) (tx : Transaction)
    (h : ∀ x ∈ compile tx, x < 256) :
    base58Decode (transactionToB58 compile tx) = compile tx ∧
    base64Decode (transactionToB64 compile tx) = compile tx :=
  ⟨base58_roundtrip _ h, base64_roundtrip _ h⟩

/-- Witness for C9 at a closed input: a concrete compiled-message byte
string round-trips through both text encodings. -/
theorem transaction_encoding_roundtrip_witness :
    base58Decode (transactionToB58 (fun _ => [0, 1, 58, 255])
      ⟨"payer", [], "hash"⟩) = [0, 1, 58, 255] ∧
    base64Decode (transactionToB64 (fun _ => [0, 1, 58, 255])
      ⟨"payer", [], "hash"⟩) = [0, 1, 58, 255] :=
  transaction_encoding_roundtrip (fun _ => [0, 1, 58, 255])
    ⟨"payer", [], "hash"⟩ (by decide)

/--
C8 (evaluation at the failing input): `getAllListConfigs` does not decode
the base64-decoded account bytes that `getList` uses: it feeds the decoder
`Uint8Array.from` of the base64 response string (per-character numeric
coercion, NaN giving 0), so on an account whose 74 raw bytes start with 1
(an Allow-mode configuration, as its decoder reads and as the
base64-decoded bytes confirm) the produced record carries Block mode.
-/
theorem getAllListConfigs_decodes_coerced_bytes :
    getAllListConfigs dEx sC8 =
      [⟨"LC1", Mode.block, "seed0", "auth0"⟩] ∧
    dEx.decodeListConfig (base64Decode (base64Encode c8Bytes)) =
      ⟨Mode.allow, "seed0", "auth0"⟩ ∧
    uint8ArrayFromString (base64Encode c8Bytes) ≠
      base64Decode (base64Encode c8Bytes) := by
  refine ⟨by decide, by decide, by decide⟩

end Mosaic










